import Mathlib

/-!
Shallow embedding of the monitoring core of healthcheck-cli, together with
theorems settling the claims of the specification against the code.

Conventions of the embedding:
* Go strings are modelled as `List Char` (`GoStr`); the string operations of
  the standard library (`strings.Contains`, `strings.HasPrefix`,
  `strings.HasSuffix`, `strings.TrimPrefix`) are modelled by executable
  functions on `List Char`.
* `time.Time` and `time.Duration` are modelled as `Int` (nanoseconds since an
  arbitrary origin); `t1.Before t2` is `t1 < t2`, `t1.After t2` is `t2 < t1`,
  `time.Since x` at instant `now` is `now - x`.
* `time.Duration.Milliseconds` divides by `1e6` truncating toward zero
  (Go integer division), hence `Int.tdiv`.
* Go `int64` overflow is modelled by `wrap64` (two's-complement wrap-around)
  where a multiplication or shift can overflow.
* Go maps used as sets/associative tables are modelled by association lists;
  only membership and update are used by the embedded code.
-/

namespace Healthcheck

/-- Go strings as lists of characters. -/
abbrev GoStr := List Char

/-- Model of `strings.Contains hay needle` (substring test). -/
def goContains : GoStr → GoStr → Bool
  | [], needle => needle.isEmpty
  | c :: t, needle => needle.isPrefixOf (c :: t) || goContains t needle

/-- Model of `strings.HasSuffix s suffix`. -/
def goHasSuffix (s suffix : GoStr) : Bool :=
  suffix.isSuffixOf s

/-- Status enum from `pkg/types/types.go`: `StatusUp = iota`, then
`StatusDown`, `StatusSlow`, `StatusError`, `StatusWarning`. -/
inductive Status
  | up
  | down
  | slow
  | error
  | warning
deriving DecidableEq, Repr

/-- Numeric value of a `Status` (Go `int(result.Status)` via `iota`). -/
def statusToInt : Status → Int
  | .up => 0
  | .down => 1
  | .slow => 2
  | .error => 3
  | .warning => 4

/-- `Result.IsHealthy` from `pkg/types/types.go`:
`r.Status == StatusUp || r.Status == StatusSlow`. -/
def statusIsHealthy (s : Status) : Bool :=
  s = Status.up || s = Status.slow

/-- `Result.IsCritical` from `pkg/types/types.go`. -/
def statusIsCritical (s : Status) : Bool :=
  s = Status.down || s = Status.error

/-- Probe result, from `pkg/types/types.go` (`Result`).  `responseTime` is in
nanoseconds (`time.Duration`), `timestamp` in the `Int` time model.  The
`headers` and `certInfo` fields are not consumed by any embedded operation and
are omitted. -/
structure Result where
  name : GoStr
  url : GoStr
  status : Status
  errMsg : GoStr
  responseTime : Int
  statusCode : Int
  timestamp : Int
  bodySize : Int
deriving DecidableEq, Repr

/-- Stored record, from `pkg/types/types.go` (`CheckResult`). -/
structure CheckResult where
  id : Int
  name : GoStr
  url : GoStr
  checkType : GoStr
  status : Int
  errMsg : GoStr
  responseTimeMs : Int
  statusCode : Int
  bodySize : Int
  timestamp : Int
  createdAt : Int
deriving DecidableEq, Repr

/-- Service metadata, from `internal/storage/memory.go` (`ServiceInfo`). -/
structure ServiceInfo where
  name : GoStr
  url : GoStr
  checkType : GoStr
  createdAt : Int
  updatedAt : Int
deriving DecidableEq, Repr

/-- The in-memory store, from `internal/storage/memory.go` (`MemoryStorage`):
the append-only result slice and the service-metadata map (modelled as an
association list).  The file-persistence fields are not part of the embedded
state. -/
structure MemoryStorage where
  results : List CheckResult
  services : List (GoStr × ServiceInfo)
deriving DecidableEq, Repr

/-- `maxResults` of `NewMemoryStorage`: keep the last 10000 results. -/
def maxResults : Nat := 10000

/-- `MemoryStorage.determineCheckType` from `internal/storage/memory.go`.
Byte indexing `url[:4]` is modelled by `List.take`; for the ASCII needles
involved the two agree.  The inner `len >= 5 && url[:5] == "https"` disjunct
is kept although it is subsumed by the `url[:4] == "http"` test. -/
def determineCheckType (url : GoStr) : GoStr :=
  if url = [] then "unknown".data
  else if 4 ≤ url.length ∧
      (url.take 4 = "http".data ∨ (5 ≤ url.length ∧ url.take 5 = "https".data)) then
    "http".data
  else "tcp".data

/-- `MemoryStorage.updateServiceInfo`: upsert of the service-metadata map. -/
def updateServiceInfo : List (GoStr × ServiceInfo) → GoStr → GoStr → GoStr → Int →
    List (GoStr × ServiceInfo)
  | [], name, url, ct, now => [(name, ⟨name, url, ct, now, now⟩)]
  | (k, svc) :: rest, name, url, ct, now =>
    if k = name then
      (k, { svc with url := url, checkType := ct, updatedAt := now }) :: rest
    else
      (k, svc) :: updateServiceInfo rest name url ct now

/-- Lookup in the service-metadata map. -/
def lookupService : List (GoStr × ServiceInfo) → GoStr → Option ServiceInfo
  | [], _ => none
  | (k, svc) :: rest, name => if k = name then some svc else lookupService rest name

/-- Rewriting of ids after overflow eviction in `SaveResult`
(`m.results[i].ID = int64(i + 1)`). -/
def reindexFrom : Nat → List CheckResult → List CheckResult
  | _, [] => []
  | i, r :: rest => { r with id := (i : Int) + 1 } :: reindexFrom (i + 1) rest

/-- The record built by `SaveResult` from the incoming `Result` at instant
`now`: id `int64(len(m.results) + 1)`, check type derived from the URL,
status converted to `int`, response time converted with
`Duration.Milliseconds` (truncating division by `1e6`). -/
def mkRecord (m : MemoryStorage) (r : Result) (now : Int) : CheckResult :=
  { id := (m.results.length : Int) + 1
    name := r.name
    url := r.url
    checkType := determineCheckType r.url
    status := statusToInt r.status
    errMsg := r.errMsg
    responseTimeMs := Int.tdiv r.responseTime 1000000
    statusCode := r.statusCode
    bodySize := r.bodySize
    timestamp := r.timestamp
    createdAt := now }

/-- `MemoryStorage.SaveResult` from `internal/storage/memory.go`.  `now` is
the instant of the call (`time.Now()`), used for `CreatedAt` and the metadata
upsert.  The new record's id is `int64(len(m.results) + 1)`; when the slice
exceeds `maxResults` the oldest tenth is evicted and ids are rewritten. -/
def saveResult (m : MemoryStorage) (r : Result) (now : Int) : MemoryStorage :=
  let rec0 : CheckResult := mkRecord m r now
  let results1 := m.results ++ [rec0]
  let results2 :=
    if maxResults < results1.length then
      reindexFrom 0 (results1.drop (maxResults / 10))
    else results1
  { results := results2
    services := updateServiceInfo m.services r.name r.url rec0.checkType now }

/-- `MemoryStorage.CleanupOldData`: remove the longest prefix of records whose
`CreatedAt` precedes `now - olderThan` (the Go loop breaks at the first record
at or after the cutoff, relying on creation order). -/
def cleanupOldData (m : MemoryStorage) (now olderThan : Int) : MemoryStorage :=
  let cutoff := now - olderThan
  let removeCount := (m.results.takeWhile (fun r => decide (r.createdAt < cutoff))).length
  { m with results := m.results.drop removeCount }

/-- Insertion step of the descending-by-timestamp sort used by
`GetServiceHistory` (`sort.Slice` with `results[i].Timestamp.After(results[j].Timestamp)`). -/
def sortInsert (x : CheckResult) : List CheckResult → List CheckResult
  | [] => [x]
  | y :: rest => if y.timestamp < x.timestamp then x :: y :: rest else y :: sortInsert x rest

/-- Sort newest-first by `timestamp`. -/
def sortByTimestampDesc (l : List CheckResult) : List CheckResult :=
  l.foldr sortInsert []

/-- `MemoryStorage.GetServiceHistory`: filter by name and `Timestamp.After since`
(strict), sort newest first, truncate to `limit` when `limit > 0`. -/
def getServiceHistory (m : MemoryStorage) (name : GoStr) (since : Int) (limit : Nat) :
    List CheckResult :=
  let filtered := m.results.filter (fun r => decide (r.name = name ∧ since < r.timestamp))
  let sorted := sortByTimestampDesc filtered
  if 0 < limit ∧ limit < sorted.length then sorted.take limit else sorted

/-- Counting loop of `MemoryStorage.GetServiceStats`: walk the result slice,
skip records of another service or with `Timestamp.Before since`, and produce
`(totalChecks, successfulChecks, failedChecks)`.  A record is successful
exactly when its stored status equals `int(StatusUp)`. -/
def statsCounts (name : GoStr) (since : Int) : List CheckResult → Int × Int × Int
  | [] => (0, 0, 0)
  | r :: rest =>
    let acc := statsCounts name since rest
    if r.name = name ∧ ¬ r.timestamp < since then
      if r.status = statusToInt Status.up then (acc.1 + 1, acc.2.1 + 1, acc.2.2)
      else (acc.1 + 1, acc.2.1, acc.2.2 + 1)
    else acc

/-- Aggregate statistics, from `pkg/types/types.go` (`ServiceStats`).  Only
the fields computed by the embedded counting loop are carried; the float64
`UptimePercent = successful / total * 100` is a function of the two counters
and is not separately modelled (floating point). -/
structure ServiceStats where
  name : GoStr
  url : GoStr
  checkType : GoStr
  totalChecks : Int
  successfulChecks : Int
  failedChecks : Int
deriving DecidableEq, Repr

/-- `MemoryStorage.GetServiceStats`: error (modelled `none`) when the service
is unknown or when no record matches; otherwise the counters of the loop and
`uptime = successful / total * 100`. -/
def getServiceStats (m : MemoryStorage) (name : GoStr) (since : Int) : Option ServiceStats :=
  match lookupService m.services name with
  | none => none
  | some svc =>
    let acc := statsCounts name since m.results
    if acc.1 = 0 then none
    else some
      { name := name
        url := svc.url
        checkType := svc.checkType
        totalChecks := acc.1
        successfulChecks := acc.2.1
        failedChecks := acc.2.2 }

/-- Global notification rules, from `internal/config/config.go`
(`NotificationRules`).  `cooldown` and `escalationDelay` are durations in the
`Int` time model. -/
structure NotificationRules where
  onSuccess : Bool
  onFailure : Bool
  onRecovery : Bool
  onSlowResponse : Bool
  cooldown : Int
  maxAlerts : Int
  escalationDelay : Int
deriving DecidableEq, Repr

/-- State of the notification manager, from
`internal/notifications/manager.go` (`Manager`): the `lastSent` map (as an
association list) and whether the email notifier was constructed
(`emailNotifier != nil`, i.e. email is the enabled channel). -/
structure NotifyManager where
  rules : NotificationRules
  lastSent : List (GoStr × Int)
  emailEnabled : Bool
deriving DecidableEq, Repr

/-- Lookup in the `lastSent` map. -/
def lookupLastSent : List (GoStr × Int) → GoStr → Option Int
  | [], _ => none
  | (k, t) :: rest, name => if k = name then some t else lookupLastSent rest name

/-- Upsert into the `lastSent` map (`m.lastSent[result.Name] = time.Now()`). -/
def setLastSent : List (GoStr × Int) → GoStr → Int → List (GoStr × Int)
  | [], name, now => [(name, now)]
  | (k, t) :: rest, name, now =>
    if k = name then (k, now) :: rest else (k, t) :: setLastSent rest name now

/-- The status switch of `Manager.shouldNotify`: `UP` consults `OnSuccess`,
`DOWN`/`ERROR`/`WARNING` consult `OnFailure`, `SLOW` consults
`OnSlowResponse`. -/
def ruleFor (rules : NotificationRules) : Status → Bool
  | .up => rules.onSuccess
  | .down => rules.onFailure
  | .slow => rules.onSlowResponse
  | .error => rules.onFailure
  | .warning => rules.onFailure

/-- `Manager.shouldNotify`: suppress when the last notification for the same
name is younger than the cooldown, otherwise consult the per-status rule
flag. -/
def shouldNotify (mgr : NotifyManager) (r : Result) (now : Int) : Bool :=
  match lookupLastSent mgr.lastSent r.name with
  | some t => if now - t < mgr.rules.cooldown then false else ruleFor mgr.rules r.status
  | none => ruleFor mgr.rules r.status

/-- Observable outcome of one `Manager.Notify` call: the new manager state,
whether a channel send was attempted (`emailNotifier != nil`), and whether
that send returned an error. -/
structure NotifyOutcome where
  mgr : NotifyManager
  attempted : Bool
  sendFailed : Bool
deriving DecidableEq, Repr

/-- `Manager.Notify` from `internal/notifications/manager.go`: if
`shouldNotify` rejects, return with no state change and no dispatch;
otherwise first set `lastSent[name] = now`, then attempt the email send if
that notifier exists.  `emailSendFails` abstracts the outcome of the SMTP
call. -/
def notifyCall (mgr : NotifyManager) (r : Result) (now : Int) (emailSendFails : Bool) :
    NotifyOutcome :=
  if shouldNotify mgr r now then
    let mgr2 := { mgr with lastSent := setLastSent mgr.lastSent r.name now }
    if mgr.emailEnabled then ⟨mgr2, true, emailSendFails⟩ else ⟨mgr2, false, false⟩
  else ⟨mgr, false, false⟩

/-- Circuit breaker configuration, from `pkg/circuitbreaker/circuitbreaker.go`
(`Config`).  `timeoutNs` is the OPEN-state timeout in the `Int` time model. -/
structure CBConfig where
  maxFailures : Int
  timeoutNs : Int
  successThreshold : Int
  enabled : Bool
deriving DecidableEq, Repr

/-- Circuit breaker state enum (`StateClosed`, `StateOpen`, `StateHalfOpen`). -/
inductive CBState
  | closed
  | opened
  | halfOpen
deriving DecidableEq, Repr

/-- Circuit breaker instance state (`circuitBreaker` struct fields). -/
structure Breaker where
  config : CBConfig
  state : CBState
  failures : Int
  successes : Int
  consecutiveSuccesses : Int
  totalRequests : Int
  lastFailureTime : Int
  lastSuccessTime : Int
  lastStateChange : Int
deriving DecidableEq, Repr

/-- `circuitBreaker.beforeRequest` at instant `now`: increment
`totalRequests`; in CLOSED and HALF_OPEN admit; in OPEN admit (moving to
HALF_OPEN) exactly when `time.Since(lastStateChange) > timeout`, else reject
with the typed open error.  Returns the updated breaker and whether the
request was admitted. -/
def beforeRequest (cb : Breaker) (now : Int) : Breaker × Bool :=
  let cb1 := { cb with totalRequests := cb.totalRequests + 1 }
  match cb1.state with
  | .closed => (cb1, true)
  | .opened =>
    if cb1.config.timeoutNs < now - cb1.lastStateChange then
      ({ cb1 with state := .halfOpen, consecutiveSuccesses := 0, lastStateChange := now },
        true)
    else (cb1, false)
  | .halfOpen => (cb1, true)

/-- `circuitBreaker.onSuccess` at instant `now`. -/
def cbOnSuccess (cb : Breaker) (now : Int) : Breaker :=
  let cb1 := { cb with
    successes := cb.successes + 1
    consecutiveSuccesses := cb.consecutiveSuccesses + 1
    lastSuccessTime := now }
  match cb1.state with
  | .halfOpen =>
    if cb1.config.successThreshold ≤ cb1.consecutiveSuccesses then
      { cb1 with state := .closed, failures := 0, lastStateChange := now }
    else cb1
  | .closed => { cb1 with failures := 0 }
  | .opened => cb1

/-- `circuitBreaker.onFailure` at instant `now`. -/
def cbOnFailure (cb : Breaker) (now : Int) : Breaker :=
  let cb1 := { cb with
    failures := cb.failures + 1
    consecutiveSuccesses := 0
    lastFailureTime := now }
  match cb1.state with
  | .closed =>
    if cb1.config.maxFailures ≤ cb1.failures then
      { cb1 with state := .opened, lastStateChange := now }
    else cb1
  | .halfOpen => { cb1 with state := .opened, lastStateChange := now }
  | .opened => cb1

/-- `circuitBreaker.afterRequest`: record a failure when the wrapped function
returned an error, a success otherwise. -/
def afterRequest (cb : Breaker) (now : Int) (failed : Bool) : Breaker :=
  if failed then cbOnFailure cb now else cbOnSuccess cb now

/-- `circuitBreaker.Execute` at instant `now` for a wrapped function whose
error outcome is `fnFails`.  Returns the updated breaker, whether the call was
rejected by the open breaker, and whether an outcome was recorded
(`afterRequest` ran).  A disabled breaker runs the function without touching
any state. -/
def cbExecute (cb : Breaker) (now : Int) (fnFails : Bool) : Breaker × Bool × Bool :=
  if cb.config.enabled then
    let step := beforeRequest cb now
    if step.2 then (afterRequest step.1 now fnFails, false, true)
    else (step.1, true, false)
  else (cb, false, false)

/-- The retry loop of `HealthCheckService.ExecuteCheck`
(`src/unnamed/part_009`) specialised to a consistently unhealthy endpoint:
each attempt invokes `breaker.Execute` around the checker; the checker result
is never healthy, and a breaker-open rejection is replaced by a synthetic
`DOWN` result, which is also unhealthy — so the loop never breaks early and
runs once per attempt.  Returns the final breaker state and the number of
outcomes the breaker recorded. -/
def runUnhealthyAttempts (cb : Breaker) (now : Int) : Nat → Breaker × Nat
  | 0 => (cb, 0)
  | n + 1 =>
    let step := cbExecute cb now true
    let rest := runUnhealthyAttempts step.1 now n
    (rest.1, (if step.2.2 then 1 else 0) + rest.2)

/-- Retry configuration, from `pkg/types/types.go` (`RetryConfig`).  `delayNs`
and `maxDelayNs` are durations in nanoseconds. -/
structure RetryConfig where
  attempts : Int
  delayNs : Int
  backoff : GoStr
  maxDelayNs : Int
deriving DecidableEq, Repr

/-- `maxAttempts` computed at the top of `ExecuteCheck`:
`check.Retry.Attempts`, defaulting to 1 when it is zero. -/
def maxAttemptsOf (retry : RetryConfig) : Int :=
  if retry.attempts = 0 then 1 else retry.attempts

/-- `ExecuteCheck` against a consistently unhealthy endpoint, restricted to
its breaker interaction: the loop body runs for `attempt = 1 .. maxAttempts`
(no iteration when `maxAttempts < 1`). -/
def executeCheckUnhealthy (cb : Breaker) (now : Int) (retry : RetryConfig) : Breaker × Nat :=
  runUnhealthyAttempts cb now (maxAttemptsOf retry).toNat

/-- Two's-complement wrap-around of Go `int64` arithmetic. -/
def wrap64 (x : Int) : Int :=
  (x + 2 ^ 63) % 2 ^ 64 - 2 ^ 63

/-- `HealthCheckService.calculateRetryDelay` from `src/unnamed/part_009`.
`attempt` is the (positive) loop counter; `1 << uint(attempt-1)` and the
products are `int64` operations, hence `wrap64`.  A zero configured delay is
replaced by the 2-second default; the `max_delay` cap is applied in the
`exponential` and `linear` branches only. -/
def calculateRetryDelay (retry : RetryConfig) (attempt : Nat) : Int :=
  let baseDelay := if retry.delayNs = 0 then 2000000000 else retry.delayNs
  if retry.backoff = "exponential".data then
    let d := wrap64 (baseDelay * wrap64 (2 ^ (attempt - 1)))
    if 0 < retry.maxDelayNs ∧ retry.maxDelayNs < d then retry.maxDelayNs else d
  else if retry.backoff = "linear".data then
    let d := wrap64 (baseDelay * (attempt : Int))
    if 0 < retry.maxDelayNs ∧ retry.maxDelayNs < d then retry.maxDelayNs else d
  else baseDelay

/-- Expectations of a check, from `pkg/types/types.go` (`Expected`).
`responseTimeMax` is a duration in nanoseconds. -/
structure Expected where
  status : Int
  statusRange : List Int
  bodyContains : GoStr
  bodyNotContains : GoStr
  responseTimeMax : Int
  contentType : GoStr
  minBodySize : Int
  certExpiryDays : Int
  certValidDomains : List GoStr
deriving DecidableEq, Repr

/-- Status-code block of `HTTPChecker.validateResponse`: when an expected
status is configured and differs from the received code, accept exactly a
two-element `status_range` containing the code. -/
def statusCodeOk (code : Int) (e : Expected) : Bool :=
  if 0 < e.status ∧ code ≠ e.status then
    match e.statusRange with
    | [lo, hi] => decide (lo ≤ code ∧ code ≤ hi)
    | _ => false
  else true

/-- `body_contains` block of `validateResponse`. -/
def bodyContainsOk (body : GoStr) (e : Expected) : Bool :=
  if e.bodyContains = [] then true else goContains body e.bodyContains

/-- `body_not_contains` block of `validateResponse`. -/
def bodyNotContainsOk (body : GoStr) (e : Expected) : Bool :=
  if e.bodyNotContains = [] then true else ! goContains body e.bodyNotContains

/-- `content_type` block of `validateResponse` (substring of the received
`Content-Type` header). -/
def contentTypeOk (contentType : GoStr) (e : Expected) : Bool :=
  if e.contentType = [] then true else goContains contentType e.contentType

/-- `min_body_size` block of `validateResponse`. -/
def minBodySizeOk (body : GoStr) (e : Expected) : Bool :=
  if 0 < e.minBodySize then decide (e.minBodySize ≤ (body.length : Int)) else true

/-- `HTTPChecker.validateResponse` from `internal/checker/http.go`: `true`
when every configured validation passes (the Go function returns `nil`). -/
def validateResponse (code : Int) (contentType body : GoStr) (e : Expected) : Bool :=
  statusCodeOk code e && bodyContainsOk body e && bodyNotContainsOk body e &&
    contentTypeOk contentType e && minBodySizeOk body e

/-- The status assignment at the end of `HTTPChecker.Check` once a response
was received: on a validation error, `SLOW` when
`duration > ResponseTimeMax && ResponseTimeMax > 0` and `DOWN` otherwise;
with all validations passing, `SLOW` on a response-time overrun, else `UP`. -/
def httpStatusFor (code : Int) (contentType body : GoStr) (e : Expected)
    (duration : Int) : Status :=
  if validateResponse code contentType body e = false then
    if e.responseTimeMax < duration ∧ 0 < e.responseTimeMax then .slow else .down
  else if 0 < e.responseTimeMax ∧ e.responseTimeMax < duration then .slow
  else .up

/-- Certificate data, from `pkg/types/types.go` (`CertInfo`). -/
structure CertInfo where
  subject : GoStr
  issuer : GoStr
  expiryDate : Int
  daysToExpiry : Int
  isValid : Bool
  commonName : GoStr
  dnsNames : List GoStr
deriving DecidableEq, Repr

/-- The `validDomains` set built by `SSLChecker.validateCertificate`: the
common name (when non-empty) together with the DNS names. -/
def validDomainEntries (ci : CertInfo) : List GoStr :=
  (if ci.commonName ≠ [] then [ci.commonName] else []) ++ ci.dnsNames

/-- One wildcard comparison of `validateCertificate`:
`strings.HasPrefix(validDomain, "*.")` and
`strings.HasSuffix(expectedDomain, strings.TrimPrefix(validDomain, "*."))`. -/
def wildcardMatches (entry d : GoStr) : Bool :=
  ("*.".data).isPrefixOf entry && goHasSuffix d (entry.drop 2)

/-- Domain coverage test of `validateCertificate`: direct set membership, or
some wildcard entry whose stem is a suffix of the expected domain. -/
def domainCovered (entries : List GoStr) (d : GoStr) : Bool :=
  entries.contains d || entries.any (fun v => wildcardMatches v d)

/-- The `cert_valid_domains` block of `validateCertificate`: with a non-empty
expectation list, every expected domain must be covered. -/
def certDomainsOk (ci : CertInfo) (e : Expected) : Bool :=
  if e.certValidDomains = [] then true
  else e.certValidDomains.all (fun d => domainCovered (validDomainEntries ci) d)

/-- `SSLChecker.validateCertificate` from `internal/checker/ssl.go`: `true`
when the certificate passes the validity, expiry-threshold and domain
checks (the Go function returns `nil`). -/
def validateCertificate (ci : CertInfo) (e : Expected) : Bool :=
  if ci.isValid = false then false
  else if 0 < e.certExpiryDays ∧ ci.daysToExpiry ≤ e.certExpiryDays then false
  else certDomainsOk ci e

/-- The status assignment at the end of `SSLChecker.Check` once certificate
data was obtained: `WARNING` on a certificate-validation error, else `SLOW`
on a handshake-time overrun, else `UP`. -/
def sslStatusFor (ci : CertInfo) (e : Expected) (duration : Int) : Status :=
  if validateCertificate ci e = false then .warning
  else if 0 < e.responseTimeMax ∧ e.responseTimeMax < duration then .slow
  else .up

/-- Modelled from the spec: the wildcard rule as the claim states it — a
domain `d` is covered when it equals an entry of
`{common_name} ∪ dns_names`, or some entry has the form `"*.X"` and `d` ends
with `"." ++ X` (the separating dot is required). -/
def claimDomainCovered (entries : List GoStr) (d : GoStr) : Bool :=
  entries.contains d ||
    entries.any (fun v =>
      ("*.".data).isPrefixOf v && goHasSuffix d ('.' :: v.drop 2))

/-- Modelled from the spec: `round(R.response_time)` to milliseconds read as
rounding to the nearest millisecond (half up), for comparison with the
truncating conversion the store performs. -/
def roundMsClaim (ns : Int) : Int :=
  (ns + 500000) / 1000000

/-- An expectation with nothing configured, the base of concrete examples. -/
def expectedNone : Expected :=
  { status := 0, statusRange := [], bodyContains := [], bodyNotContains := []
    responseTimeMax := 0, contentType := [], minBodySize := 0
    certExpiryDays := 0, certValidDomains := [] }

/-- A concrete probe result for the service `"a"`. -/
def resultA (s : Status) (rt ts : Int) : Result :=
  { name := "a".data, url := "u".data, status := s, errMsg := []
    responseTime := rt, statusCode := 0, timestamp := ts, bodySize := 0 }

/-- The empty in-memory store. -/
def emptyStore : MemoryStorage :=
  { results := [], services := [] }

/-- A freshly created breaker (`New`): CLOSED, all counters zero.  The model
takes the creation instant as time origin. -/
def freshBreaker (cfg : CBConfig) : Breaker :=
  { config := cfg, state := .closed, failures := 0, successes := 0
    consecutiveSuccesses := 0, totalRequests := 0, lastFailureTime := 0
    lastSuccessTime := 0, lastStateChange := 0 }

/-- The default breaker configuration of the service constructor
(`MaxFailures 5, Timeout 60s, SuccessThreshold 3, Enabled`). -/
def cbConfig5 : CBConfig :=
  { maxFailures := 5, timeoutNs := 60000000000, successThreshold := 3, enabled := true }

/-- Concrete rules: failure/recovery/slow alerts on, success alerts off. -/
def rulesNoSuccess : NotificationRules :=
  { onSuccess := false, onFailure := true, onRecovery := true, onSlowResponse := true
    cooldown := 10, maxAlerts := 10, escalationDelay := 0 }

/-- A concrete certificate whose only SAN entry is the wildcard
`*.example.com`, with an empty common name. -/
def certWildcard : CertInfo :=
  { subject := [], issuer := [], expiryDate := 0, daysToExpiry := 1000
    isValid := true, commonName := [], dnsNames := ["*.example.com".data] }

/-- A store holding exactly one `SLOW` record for service `"a"`. -/
def storeWithSlow : MemoryStorage :=
  saveResult emptyStore (resultA Status.slow 1900000 50) 60

/-- The statistics of `storeWithSlow`: one check, zero successes. -/
def slowStats : ServiceStats :=
  { name := "a".data, url := "u".data, checkType := "tcp".data
    totalChecks := 1, successfulChecks := 0, failedChecks := 1 }

/-- The expectation of the C2 counterexample: expected status 200 and a
100 ns response-time budget. -/
def expectedC2 : Expected :=
  { expectedNone with status := 200, responseTimeMax := 100 }

/-- The expectation of the C4 counterexample: the single expected domain
`badexample.com`. -/
def expectedC4 : Expected :=
  { expectedNone with certValidDomains := ["badexample.com".data] }

/-- The expectation of the C4 witness: the single expected domain
`api.example.com`. -/
def expectedC4w : Expected :=
  { expectedNone with certValidDomains := ["api.example.com".data] }

/-- A manager with the `rulesNoSuccess` rules, an empty `lastSent` map and
the email channel enabled. -/
def mgrC5 : NotifyManager :=
  { rules := rulesNoSuccess, lastSent := [], emailEnabled := true }

/-- A manager with no enabled channel at all. -/
def mgrC6 : NotifyManager :=
  { rules := rulesNoSuccess, lastSent := [], emailEnabled := false }

/-- The retry configuration of the C1 example: two attempts. -/
def retryTwo : RetryConfig :=
  { attempts := 2, delayNs := 0, backoff := [], maxDelayNs := 0 }

/-- Retry config with backoff "none" and a zero base delay. -/
def retryNoneZero : RetryConfig :=
  { attempts := 3, delayNs := 0, backoff := "none".data, maxDelayNs := 0 }

/-- Retry config with backoff "none", a 5 s base delay and a 1 s cap. -/
def retryNoneCapped : RetryConfig :=
  { attempts := 3, delayNs := 5000000000, backoff := "none".data, maxDelayNs := 1000000000 }

/-- Exponential retry config: base 3 ns, cap 20 ns. -/
def retryExpC7 : RetryConfig :=
  { attempts := 5, delayNs := 3, backoff := "exponential".data, maxDelayNs := 20 }

/-- `wrap64` is the identity on values representable in a signed 64-bit
integer (no overflow). -/
theorem wrap64_eq_self {x : Int} (h0 : -(2 ^ 63) ≤ x) (h1 : x < 2 ^ 63) :
    wrap64 x = x := by
  have h63 : (2 : Int) ^ 63 = 9223372036854775808 := by norm_num
  have h64 : (2 : Int) ^ 64 = 18446744073709551616 := by norm_num
  have hmod : (x + 2 ^ 63) % 2 ^ 64 = x + 2 ^ 63 := by
    apply Int.emod_eq_of_lt <;> omega
  simp only [wrap64, hmod]
  omega

/-- Below capacity, `SaveResult` appends the new record and evicts nothing. -/
theorem saveResult_no_evict (m : MemoryStorage) (r : Result) (now : Int)
    (h : m.results.length + 1 ≤ maxResults) :
    (saveResult m r now).results = m.results ++ [mkRecord m r now] := by
  simp only [saveResult]
  have hlen : ¬ maxResults < m.results.length + 1 := by omega
  simp [hlen]

/-- After `setLastSent`, the updated name maps to the new instant. -/
theorem lookup_setLastSent_self (ls : List (GoStr × Int)) (name : GoStr) (now : Int) :
    lookupLastSent (setLastSent ls name now) name = some now := by
  induction ls with
  | nil => simp [setLastSent, lookupLastSent]
  | cons p rest ih =>
    by_cases h : p.1 = name
    · simp [setLastSent, lookupLastSent, h]
    · simp [setLastSent, lookupLastSent, h, ih]

/-- Inserting an element with a strictly smaller timestamp below a maximal
head keeps the head in place. -/
theorem sortInsert_below (x y : CheckResult) (tl : List CheckResult)
    (h : y.timestamp < x.timestamp) :
    sortInsert y (x :: tl) = x :: sortInsert y tl := by
  have hn : ¬ x.timestamp < y.timestamp := by omega
  simp [sortInsert, hn]

/-- Sorting a list whose final element strictly dominates every other
timestamp puts that element at the head. -/
theorem sortDesc_append_max (L : List CheckResult) (x : CheckResult)
    (h : ∀ q ∈ L, q.timestamp < x.timestamp) :
    ∃ tl, sortByTimestampDesc (L ++ [x]) = x :: tl := by
  induction L with
  | nil => exact ⟨[], rfl⟩
  | cons y L ih =>
    obtain ⟨tl, htl⟩ := ih (fun q hq => h q (List.mem_cons_of_mem y hq))
    refine ⟨sortInsert y tl, ?_⟩
    have hy : y.timestamp < x.timestamp := h y (List.mem_cons_self y L)
    calc sortByTimestampDesc ((y :: L) ++ [x])
        = sortInsert y (sortByTimestampDesc (L ++ [x])) := rfl
      _ = sortInsert y (x :: tl) := by rw [htl]
      _ = x :: sortInsert y tl := sortInsert_below x y tl hy

/-- Eviction reindexing rewrites ids only: every reindexed record keeps the
check type of a record of the original list. -/
theorem reindexFrom_checkType_mem (l : List CheckResult) :
    ∀ (i : Nat) (q : CheckResult), q ∈ reindexFrom i l →
      ∃ p ∈ l, q.checkType = p.checkType := by
  induction l with
  | nil => intro i q hq; simp [reindexFrom] at hq
  | cons r rest ih =>
    intro i q hq
    simp only [reindexFrom, List.mem_cons] at hq
    rcases hq with hq | hq
    · exact ⟨r, List.mem_cons_self r rest, by simp [hq]⟩
    · obtain ⟨p, hp, hpc⟩ := ih (i + 1) q hq
      exact ⟨p, List.mem_cons_of_mem r hp, hpc⟩

/-- The statistics loop computes the filter-based counts: total matching
records, matching records with stored status `int(StatusUp)`, and matching
records with any other status. -/
theorem statsCounts_spec (name : GoStr) (since : Int) (l : List CheckResult) :
    (statsCounts name since l).1 =
        ((l.filter fun r => decide (r.name = name ∧ ¬ r.timestamp < since)).length : Int) ∧
      (statsCounts name since l).2.1 =
        ((l.filter fun r =>
          decide ((r.name = name ∧ ¬ r.timestamp < since) ∧
            r.status = statusToInt Status.up)).length : Int) ∧
      (statsCounts name since l).2.2 =
        ((l.filter fun r =>
          decide ((r.name = name ∧ ¬ r.timestamp < since) ∧
            ¬ r.status = statusToInt Status.up)).length : Int) := by
  induction l with
  | nil => simp [statsCounts]
  | cons r rest ih =>
    obtain ⟨ih1, ih2, ih3⟩ := ih
    by_cases ha : r.name = name
    · by_cases hb : r.timestamp < since
      · have hb2 : ¬ since ≤ r.timestamp := not_le.mpr hb
        simp [statsCounts, List.filter_cons, ha, hb, hb2, ih1, ih2, ih3]
      · have hb2 : since ≤ r.timestamp := not_lt.mp hb
        by_cases h2 : r.status = statusToInt Status.up
        · simp [statsCounts, List.filter_cons, ha, hb, hb2, h2, ih1, ih2, ih3]
        · simp [statsCounts, List.filter_cons, ha, hb, hb2, h2, ih1, ih2, ih3]
    · simp [statsCounts, List.filter_cons, ha, ih1, ih2, ih3]

/-- One admitted failing call on an enabled CLOSED breaker: the call is
recorded, the failure counter increments, and the breaker opens exactly when
the counter reaches `max_failures`. -/
theorem cbExecute_closed_fail (cb : Breaker) (now : Int)
    (h1 : cb.config.enabled = true) (h2 : cb.state = CBState.closed) :
    cbExecute cb now true =
      (if cb.config.maxFailures ≤ cb.failures + 1 then
        { cb with
          totalRequests := cb.totalRequests + 1
          failures := cb.failures + 1
          consecutiveSuccesses := 0
          lastFailureTime := now
          state := CBState.opened
          lastStateChange := now }
      else
        { cb with
          totalRequests := cb.totalRequests + 1
          failures := cb.failures + 1
          consecutiveSuccesses := 0
          lastFailureTime := now }, false, true) := by
  obtain ⟨cfg, st, f, s, cs, tr, lft, lst, lsc⟩ := cb
  simp only at h1 h2
  subst h2
  by_cases hm : cfg.maxFailures ≤ f + 1 <;>
    simp [cbExecute, h1, beforeRequest, afterRequest, cbOnFailure, hm]

/-- Invariant of the retry loop against a consistently unhealthy endpoint:
starting CLOSED with `failures + n ≤ max_failures`, the breaker records one
failure outcome per attempt — `n` outcomes in total — and ends with
`failures + n` failures. -/
theorem runUnhealthy_closed (now : Int) :
    ∀ (n : Nat) (cb : Breaker), cb.config.enabled = true → cb.state = CBState.closed →
      cb.failures + (n : Int) ≤ cb.config.maxFailures →
      (runUnhealthyAttempts cb now n).2 = n ∧
        (runUnhealthyAttempts cb now n).1.failures = cb.failures + (n : Int) := by
  intro n
  induction n with
  | zero =>
    intro cb h1 h2 h3
    simp [runUnhealthyAttempts]
  | succ k ih =>
    intro cb h1 h2 h3
    rw [runUnhealthyAttempts, cbExecute_closed_fail cb now h1 h2]
    by_cases hm : cb.config.maxFailures ≤ cb.failures + 1
    · have hk : k = 0 := by omega
      subst hk
      simp [hm, runUnhealthyAttempts]
    · have hrec := ih
        { cb with
          totalRequests := cb.totalRequests + 1
          failures := cb.failures + 1
          consecutiveSuccesses := 0
          lastFailureTime := now }
        h1 h2 (by simp; push_cast at h3 ⊢; omega)
      simp only [hm, if_false]
      simp only at hrec
      constructor
      · simp [hrec.1]
        omega
      · simp [hrec.2]
        omega

/-- The `url[:4] == "http"` guard of `determineCheckType` is exactly the
prefix test `"http" <+: url` (the redundant `https` disjunct collapses). -/
theorem take4_http_iff (url : GoStr) :
    (4 ≤ url.length ∧
        (url.take 4 = "http".data ∨ (5 ≤ url.length ∧ url.take 5 = "https".data))) ↔
      ("http".data).isPrefixOf url = true := by
  rw [ List.isPrefixOf_iff_prefix, List.prefix_iff_eq_take]
  have hlen4 : ("http".data).length = 4 := by decide
  rw [hlen4]
  constructor
  · rintro ⟨hge, hc | ⟨hge5, hc5⟩⟩
    · exact hc.symm
    · have h4 := congrArg (List.take 4) hc5
      rw [List.take_take] at h4
      have hmin : min 4 5 = 4 := by norm_num
      rw [hmin] at h4
      have : ("https".data).take 4 = "http".data := by decide
      rw [this] at h4
      exact h4.symm
  · intro hpre
    have hl : (url.take 4).length = 4 := by rw [← hpre]; decide
    rw [List.length_take] at hl
    exact ⟨by omega, Or.inl hpre.symm⟩

/-- No branch of `determineCheckType` ever yields `"ssl"`. -/
theorem determineCheckType_ne_ssl (url : GoStr) :
    determineCheckType url ≠ "ssl".data := by
  unfold determineCheckType
  split_ifs <;> decide

/-- Claim C9: `GetServiceStats` counts a stored `SLOW` result as a failed
check, not a successful one — `successful_checks` counts exactly the records
whose stored status is `int(StatusUp)` and `failed_checks` all other matching
records — although the `IsHealthy` predicate holds for `SLOW`. -/
theorem C9_slow_counts_as_failed (m : MemoryStorage) (name : GoStr) (since : Int)
    (stats : ServiceStats) (h : getServiceStats m name since = some stats) :
    stats.successfulChecks =
        ((m.results.filter fun r =>
          decide ((r.name = name ∧ ¬ r.timestamp < since) ∧
            r.status = statusToInt Status.up)).length : Int) ∧
      stats.failedChecks =
        ((m.results.filter fun r =>
          decide ((r.name = name ∧ ¬ r.timestamp < since) ∧
            ¬ r.status = statusToInt Status.up)).length : Int) ∧
      statusToInt Status.slow ≠ statusToInt Status.up ∧
      statusIsHealthy Status.slow = true := by
  have hs := statsCounts_spec name since m.results
  cases hl : lookupService m.services name with
  | none => simp [getServiceStats, hl] at h
  | some svc =>
    simp only [getServiceStats, hl] at h
    split at h
    · exact absurd h (by simp)
    · have hstats := Option.some.inj h
      refine ⟨?_, ?_, by decide, by decide⟩
      · rw [← hstats]
        exact hs.2.1
      · rw [← hstats]
        exact hs.2.2

/-- Witness for C9 on a concrete store with one `SLOW` record. -/
theorem C9_witness :
    getServiceStats storeWithSlow "a".data 0 = some slowStats ∧
      (slowStats.successfulChecks =
          ((storeWithSlow.results.filter fun r =>
            decide ((r.name = "a".data ∧ ¬ r.timestamp < 0) ∧
              r.status = statusToInt Status.up)).length : Int) ∧
        slowStats.failedChecks =
          ((storeWithSlow.results.filter fun r =>
            decide ((r.name = "a".data ∧ ¬ r.timestamp < 0) ∧
              ¬ r.status = statusToInt Status.up)).length : Int) ∧
        statusToInt Status.slow ≠ statusToInt Status.up ∧
        statusIsHealthy Status.slow = true) :=
  ⟨by decide, C9_slow_counts_as_failed storeWithSlow "a".data 0 slowStats (by decide)⟩

/-- Claim C10: the stored `check_type` is derived solely from the result URL
("unknown" for the empty URL, "http" for URLs starting with "http", "tcp"
otherwise), and consequently no record — in particular none saved for an SSL
check — is ever stored with check type "ssl". -/
theorem C10_checkType_from_url :
    (∀ url : GoStr, determineCheckType url =
        if url = [] then "unknown".data
        else if ("http".data).isPrefixOf url then "http".data
        else "tcp".data) ∧
      (∀ url : GoStr, determineCheckType url ≠ "ssl".data) ∧
      ∀ (m : MemoryStorage) (r : Result) (now : Int),
        (∀ q ∈ m.results, q.checkType ≠ "ssl".data) →
        ∀ q ∈ (saveResult m r now).results, q.checkType ≠ "ssl".data := by
  refine ⟨?_, determineCheckType_ne_ssl, ?_⟩
  · intro url
    by_cases h0 : url = []
    · simp [determineCheckType, h0]
    · by_cases hp : ("http".data).isPrefixOf url = true
      · rw [determineCheckType, if_neg h0, if_pos ((take4_http_iff url).mpr hp)]
        simp [h0, hp]
      · rw [determineCheckType, if_neg h0,
          if_neg (fun hc => hp ((take4_http_iff url).mp hc))]
        simp [h0, hp]
  · intro m r now hall q hq
    simp only [saveResult] at hq
    split at hq
    · obtain ⟨p, hp, hpc⟩ := reindexFrom_checkType_mem _ 0 q hq
      have hp2 := List.mem_of_mem_drop hp
      rw [List.mem_append] at hp2
      rcases hp2 with hp2 | hp2
      · rw [hpc]; exact hall p hp2
      · rw [List.mem_singleton] at hp2
        rw [hpc, hp2]
        exact determineCheckType_ne_ssl r.url
    · rw [List.mem_append] at hq
      rcases hq with hq | hq
      · exact hall q hq
      · rw [List.mem_singleton] at hq
        rw [hq]
        exact determineCheckType_ne_ssl r.url

/-- Witness for C10's conditional part on a concrete store and an SSL-style
target URL. -/
theorem C10_witness :
    (∀ q ∈ emptyStore.results, q.checkType ≠ "ssl".data) ∧
      ∀ q ∈ (saveResult emptyStore (resultA Status.up 0 0) 0).results,
        q.checkType ≠ "ssl".data :=
  ⟨by simp [emptyStore],
    C10_checkType_from_url.2.2 emptyStore (resultA Status.up 0 0) 0
      (by simp [emptyStore])⟩

/-- Counterexample to claim C3 as stated: the store assigns id 1, a cleanup
removes that record, and the next save assigns id 1 again — the new id is not
strictly greater than every previously assigned id. -/
theorem C3_counterexample :
    ((saveResult emptyStore (resultA Status.up 0 0) 0).results.map CheckResult.id = [1]) ∧
      ((saveResult (cleanupOldData (saveResult emptyStore (resultA Status.up 0 0) 0) 100 10)
          (resultA Status.up 0 1) 200).results.map CheckResult.id = [1]) ∧
      ¬ ((1 : Int) > 1) := by decide

/-- Claim C3 (amended): the id assigned by `SaveResult` equals the current
record count plus one; consecutive saves with no intervening cleanup or
eviction therefore get strictly increasing ids, but after cleanup or overflow
eviction ids are reused. -/
theorem C3_id_assignment (m : MemoryStorage) (r1 r2 : Result) (now1 now2 : Int)
    (h : m.results.length + 2 ≤ maxResults) :
    ∃ q1 q2,
      (saveResult m r1 now1).results = m.results ++ [q1] ∧
        q1.id = (m.results.length : Int) + 1 ∧
        (saveResult (saveResult m r1 now1) r2 now2).results = m.results ++ [q1] ++ [q2] ∧
        q2.id = (m.results.length : Int) + 2 ∧
        q1.id < q2.id := by
  have h1 := saveResult_no_evict m r1 now1 (by omega)
  have hlen : (saveResult m r1 now1).results.length = m.results.length + 1 := by
    rw [h1]; simp
  have h2 := saveResult_no_evict (saveResult m r1 now1) r2 now2 (by omega)
  refine ⟨mkRecord m r1 now1, mkRecord (saveResult m r1 now1) r2 now2, h1, rfl, ?_, ?_, ?_⟩
  · rw [h2, h1]
  · show ((saveResult m r1 now1).results.length : Int) + 1 = (m.results.length : Int) + 2
    rw [hlen]
    push_cast
    ring
  · show (m.results.length : Int) + 1 <
      ((saveResult m r1 now1).results.length : Int) + 1
    rw [hlen]
    push_cast
    omega

/-- Witness for C3 (amended) on the empty store. -/
theorem C3_witness :
    emptyStore.results.length + 2 ≤ maxResults ∧
      ∃ q1 q2,
        (saveResult emptyStore (resultA Status.up 0 0) 0).results =
            emptyStore.results ++ [q1] ∧
          q1.id = (emptyStore.results.length : Int) + 1 ∧
          (saveResult (saveResult emptyStore (resultA Status.up 0 0) 0)
              (resultA Status.up 0 1) 5).results = emptyStore.results ++ [q1] ++ [q2] ∧
          q2.id = (emptyStore.results.length : Int) + 2 ∧
          q1.id < q2.id :=
  ⟨by decide,
    C3_id_assignment emptyStore (resultA Status.up 0 0) (resultA Status.up 0 1) 0 5
      (by decide)⟩

/-- Counterexample to claim C8 as stated: a response time of 1.9 ms is stored
as 1 ms (`Duration.Milliseconds` truncates), while rounding to the nearest
millisecond gives 2 ms. -/
theorem C8_counterexample :
    ((getServiceHistory storeWithSlow "a".data 49 1).map CheckResult.responseTimeMs = [1]) ∧
      roundMsClaim (resultA Status.slow 1900000 50).responseTime = 2 ∧
      ((1 : Int) ≠ 2) := by decide

/-- Claim C8 (amended): for a result `R` saved below capacity whose timestamp
is strictly later than every stored record for its name,
`GetServiceHistory(R.name, since, 1)` with `since < R.timestamp` returns
exactly one record, carrying `R`'s status, `R`'s response time truncated to
milliseconds, and `R`'s timestamp. -/
theorem C8_roundtrip (m : MemoryStorage) (r : Result) (now since : Int)
    (hcap : m.results.length + 1 ≤ maxResults)
    (hlatest : ∀ q ∈ m.results, q.name = r.name → q.timestamp < r.timestamp)
    (hsince : since < r.timestamp) :
    ∃ q, getServiceHistory (saveResult m r now) r.name since 1 = [q] ∧
      q.status = statusToInt r.status ∧
      q.responseTimeMs = Int.tdiv r.responseTime 1000000 ∧
      q.timestamp = r.timestamp := by
  refine ⟨mkRecord m r now, ?_, rfl, rfl, rfl⟩
  have hres := saveResult_no_evict m r now hcap
  simp only [getServiceHistory, hres, List.filter_append]
  have hpass :
      (List.filter (fun q => decide (q.name = r.name ∧ since < q.timestamp))
        [mkRecord m r now]) = [mkRecord m r now] := by
    simp [mkRecord, hsince]
  rw [hpass]
  have hmax : ∀ q ∈ List.filter (fun q => decide (q.name = r.name ∧ since < q.timestamp))
      m.results, q.timestamp < (mkRecord m r now).timestamp := by
    intro q hq
    have hmem := List.mem_filter.mp hq
    have hprop := of_decide_eq_true hmem.2
    exact hlatest q hmem.1 hprop.1
  obtain ⟨tl, htl⟩ := sortDesc_append_max _ (mkRecord m r now) hmax
  rw [htl]
  cases tl with
  | nil => simp
  | cons z zs => simp

/-- Witness for C8 (amended): a second, later result for service `"a"` on top
of `storeWithSlow`. -/
theorem C8_witness :
    (storeWithSlow.results.length + 1 ≤ maxResults ∧
        (∀ q ∈ storeWithSlow.results,
          q.name = (resultA Status.up 2500000 60).name → q.timestamp < 60) ∧
        (55 : Int) < 60) ∧
      ∃ q, getServiceHistory (saveResult storeWithSlow (resultA Status.up 2500000 60) 70)
            (resultA Status.up 2500000 60).name 55 1 = [q] ∧
        q.status = statusToInt Status.up ∧
        q.responseTimeMs = Int.tdiv 2500000 1000000 ∧
        q.timestamp = 60 :=
  ⟨⟨by decide, by decide, by decide⟩,
    C8_roundtrip storeWithSlow (resultA Status.up 2500000 60) 70 55 (by decide) (by decide)
      (by decide)⟩

/-- Counterexample to claim C2 as stated: a response that fails the
status-code validation (500 instead of 200) and also overruns the
response-time budget is classified `SLOW`, not `DOWN`. -/
theorem C2_counterexample :
    validateResponse 500 [] [] expectedC2 = false ∧
      httpStatusFor 500 [] [] expectedC2 200 = Status.slow ∧
      Status.slow ≠ Status.down := by decide

/-- Claim C2 (amended): an HTTP probe is `SLOW` exactly when the elapsed time
overruns a positive `response_time_max` — also when other validations failed;
`DOWN` exactly when some validation failed and there is no overrun; `UP`
exactly when every validation passed and there is no overrun. -/
theorem C2_http_status (code : Int) (ct body : GoStr) (e : Expected) (duration : Int) :
    (httpStatusFor code ct body e duration = Status.slow ↔
        (0 < e.responseTimeMax ∧ e.responseTimeMax < duration)) ∧
      (httpStatusFor code ct body e duration = Status.down ↔
        (validateResponse code ct body e = false ∧
          ¬ (0 < e.responseTimeMax ∧ e.responseTimeMax < duration))) ∧
      (httpStatusFor code ct body e duration = Status.up ↔
        (validateResponse code ct body e = true ∧
          ¬ (0 < e.responseTimeMax ∧ e.responseTimeMax < duration))) := by
  unfold httpStatusFor
  by_cases hv : validateResponse code ct body e = false
  · by_cases ho : e.responseTimeMax < duration ∧ 0 < e.responseTimeMax
    · simp [hv, ho, And.comm]
    · simp [hv, ho]
      omega
  · have hv2 : validateResponse code ct body e = true := by
      revert hv; cases validateResponse code ct body e <;> simp
    by_cases ho : 0 < e.responseTimeMax ∧ e.responseTimeMax < duration
    · simp [hv2, ho]
    · simp [hv2, ho]

/-- Counterexample to claim C4 as stated: with SAN `*.example.com`, the
domain `badexample.com` passes the code's wildcard check (suffix without the
required dot) and the check reports `UP`, while the claim's rule does not
cover it and demands `WARNING`. -/
theorem C4_counterexample :
    validateCertificate certWildcard expectedC4 = true ∧
      sslStatusFor certWildcard expectedC4 0 = Status.up ∧
      claimDomainCovered (validDomainEntries certWildcard) "badexample.com".data = false ∧
      Status.up ≠ Status.warning := by decide

/-- Claim C4 (amended): with a non-empty `cert_valid_domains`, a certificate
passing the validity and expiry checks passes domain validation iff every
expected domain equals some entry of `{common_name} ∪ dns_names`, or some
entry has the form `"*.X"` and the domain ends with the stem `X` — the dot is
not required.  Any failure of `validateCertificate` yields `WARNING`. -/
theorem C4_domain_validation (ci : CertInfo) (e : Expected)
    (hne : e.certValidDomains ≠ [])
    (hvalid : ci.isValid = true)
    (hexp : ¬ (0 < e.certExpiryDays ∧ ci.daysToExpiry ≤ e.certExpiryDays)) :
    (validateCertificate ci e = true ↔
        ∀ d ∈ e.certValidDomains,
          d ∈ validDomainEntries ci ∨
            ∃ v ∈ validDomainEntries ci, "*.".data <+: v ∧ (v.drop 2) <:+ d) ∧
      ∀ duration : Int,
        (sslStatusFor ci e duration = Status.warning ↔
          validateCertificate ci e = false) := by
  constructor
  · unfold validateCertificate certDomainsOk
    rw [if_neg (by simp [hvalid]), if_neg hexp, if_neg hne, List.all_eq_true]
    refine forall_congr' fun d => ?_
    refine imp_congr_right fun _ => ?_
    simp only [domainCovered, wildcardMatches, Bool.or_eq_true, List.any_eq_true,
      Bool.and_eq_true, List.isPrefixOf_iff_prefix, goHasSuffix,
      List.isSuffixOf_iff_suffix, List.elem_eq_mem, decide_eq_true_eq]
  · intro duration
    unfold sslStatusFor
    by_cases hc : validateCertificate ci e = false
    · simp [hc]
    · have hc2 : validateCertificate ci e = true := by
        revert hc; cases validateCertificate ci e <;> simp
      simp only [hc2]
      split_ifs <;> simp_all

/-- Witness for C4 (amended): the wildcard certificate against the domain
`api.example.com`. -/
theorem C4_witness :
    (expectedC4w.certValidDomains ≠ []) ∧
      ((validateCertificate certWildcard expectedC4w = true ↔
          ∀ d ∈ expectedC4w.certValidDomains,
            d ∈ validDomainEntries certWildcard ∨
              ∃ v ∈ validDomainEntries certWildcard,
                "*.".data <+: v ∧ (v.drop 2) <:+ d) ∧
        ∀ duration : Int,
          (sslStatusFor certWildcard expectedC4w duration = Status.warning ↔
            validateCertificate certWildcard expectedC4w = false)) :=
  ⟨by decide,
    C4_domain_validation certWildcard expectedC4w (by decide) (by decide) (by decide)⟩

/-- Counterexample to claim C5 as stated: a `DOWN` result is dispatched, and
after the cooldown the recovery `UP` result for the same name is **not**
dispatched although `on_recovery` is enabled — the manager only consults
`on_success` for `UP`. -/
theorem C5_counterexample :
    rulesNoSuccess.onRecovery = true ∧
      rulesNoSuccess.onSuccess = false ∧
      statusIsHealthy Status.down = false ∧
      (notifyCall mgrC5 (resultA Status.down 0 0) 0 false).attempted = true ∧
      ¬ ((1000 : Int) - 0 < rulesNoSuccess.cooldown) ∧
      (notifyCall (notifyCall mgrC5 (resultA Status.down 0 0) 0 false).mgr
          (resultA Status.up 0 1) 1000 false).attempted = false := by decide

/-- Claim C5 (amended): the notifier keeps no record of previous statuses and
never consults `on_recovery`; an `UP` result — recovery or not — is
dispatched only when `on_success` is enabled (and the cooldown has passed),
and flipping `on_recovery` never changes the decision. -/
theorem C5_up_needs_onSuccess (rules : NotificationRules) (ls : List (GoStr × Int))
    (email : Bool) (r : Result) (now : Int) (sendFails : Bool) (b : Bool)
    (hup : r.status = Status.up) :
    ((notifyCall ⟨rules, ls, email⟩ r now sendFails).attempted = true →
        rules.onSuccess = true) ∧
      shouldNotify ⟨rules, ls, email⟩ r now =
        shouldNotify ⟨{ rules with onRecovery := b }, ls, email⟩ r now := by
  constructor
  · intro hatt
    by_cases hs : shouldNotify ⟨rules, ls, email⟩ r now = true
    · cases hlk : lookupLastSent ls r.name with
      | none =>
        simp only [shouldNotify, hlk] at hs
        rw [hup] at hs
        exact hs
      | some t =>
        simp only [shouldNotify, hlk] at hs
        by_cases hc : now - t < rules.cooldown
        · rw [if_pos hc] at hs
          exact absurd hs (by simp)
        · rw [if_neg hc] at hs
          rw [hup] at hs
          exact hs
    · unfold notifyCall at hatt
      rw [if_neg hs] at hatt
      exact absurd hatt (by simp)
  · unfold shouldNotify
    cases lookupLastSent ls r.name <;> simp [ruleFor, hup]

/-- Witness for C5 (amended) at a concrete `UP` result. -/
theorem C5_witness :
    (resultA Status.up 0 1).status = Status.up ∧
      (((notifyCall ⟨rulesNoSuccess, [], true⟩ (resultA Status.up 0 1) 1000 false).attempted =
            true →
          rulesNoSuccess.onSuccess = true) ∧
        shouldNotify ⟨rulesNoSuccess, [], true⟩ (resultA Status.up 0 1) 1000 =
          shouldNotify ⟨{ rulesNoSuccess with onRecovery := false }, [], true⟩
            (resultA Status.up 0 1) 1000) :=
  ⟨by decide,
    C5_up_needs_onSuccess rulesNoSuccess [] true (resultA Status.up 0 1) 1000 false false
      (by decide)⟩

/-- Counterexample to claim C6 as stated: a `DOWN` result passes the rules
with no channel enabled — nothing is dispatched, yet `last_sent[name]` is
still updated to the call instant. -/
theorem C6_counterexample :
    (notifyCall mgrC6 (resultA Status.down 0 0) 7 false).attempted = false ∧
      lookupLastSent (notifyCall mgrC6 (resultA Status.down 0 0) 7 false).mgr.lastSent
          "a".data = some 7 ∧
      lookupLastSent mgrC6.lastSent "a".data = none := by decide

/-- Claim C6 (amended): whenever the rule and cooldown checks pass,
`last_sent[name]` is set to the call instant before any channel dispatch,
regardless of whether any channel is enabled or whether the send succeeds. -/
theorem C6_lastSent_on_rule_pass (mgr : NotifyManager) (r : Result) (now : Int)
    (sendFails : Bool) (h : shouldNotify mgr r now = true) :
    lookupLastSent (notifyCall mgr r now sendFails).mgr.lastSent r.name = some now := by
  unfold notifyCall
  rw [if_pos h]
  by_cases he : mgr.emailEnabled <;> simp [he, lookup_setLastSent_self]

/-- Witness for C6 (amended): a failing send on an enabled channel still
stamps `last_sent`. -/
theorem C6_witness :
    shouldNotify mgrC5 (resultA Status.down 0 0) 3 = true ∧
      lookupLastSent
          (notifyCall mgrC5 (resultA Status.down 0 0) 3 true).mgr.lastSent
          (resultA Status.down 0 0).name = some 3 :=
  ⟨by decide, C6_lastSent_on_rule_pass mgrC5 (resultA Status.down 0 0) 3 true (by decide)⟩

/-- Counterexample to claim C1 as stated: with two retry attempts against a
consistently unhealthy endpoint, a fresh enabled breaker records **two**
failure outcomes in the one `ExecuteCheck` occurrence, not one. -/
theorem C1_counterexample :
    (executeCheckUnhealthy (freshBreaker cbConfig5) 0 retryTwo).2 = 2 ∧
      (executeCheckUnhealthy (freshBreaker cbConfig5) 0 retryTwo).1.failures = 2 ∧
      (2 : Nat) ≠ 1 := by decide

/-- Claim C1 (amended): `ExecuteCheck` wraps **each attempt** in its own
`breaker.Execute` call, so against a consistently unhealthy endpoint an
enabled CLOSED breaker (that does not trip mid-loop) records one failure
outcome per attempt — `N` outcomes in total, with the failure counter
increasing by `N`. -/
theorem C1_one_outcome_per_attempt (cb : Breaker) (now : Int) (retry : RetryConfig)
    (hen : cb.config.enabled = true) (hcl : cb.state = CBState.closed)
    (hn : 1 ≤ maxAttemptsOf retry)
    (hf : cb.failures + maxAttemptsOf retry ≤ cb.config.maxFailures) :
    (executeCheckUnhealthy cb now retry).2 = (maxAttemptsOf retry).toNat ∧
      (executeCheckUnhealthy cb now retry).1.failures =
        cb.failures + maxAttemptsOf retry := by
  have hcast : (((maxAttemptsOf retry).toNat : Int)) = maxAttemptsOf retry :=
    Int.toNat_of_nonneg (by omega)
  have h1 := runUnhealthy_closed now (maxAttemptsOf retry).toNat cb hen hcl
    (by rw [hcast]; exact hf)
  unfold executeCheckUnhealthy
  exact ⟨h1.1, by rw [h1.2, hcast]⟩

/-- Witness for C1 (amended): three attempts on a fresh breaker record three
outcomes. -/
theorem C1_witness :
    ((freshBreaker cbConfig5).config.enabled = true ∧
        (freshBreaker cbConfig5).state = CBState.closed ∧
        1 ≤ maxAttemptsOf { retryTwo with attempts := 3 } ∧
        (freshBreaker cbConfig5).failures + maxAttemptsOf { retryTwo with attempts := 3 } ≤
          (freshBreaker cbConfig5).config.maxFailures) ∧
      (executeCheckUnhealthy (freshBreaker cbConfig5) 0 { retryTwo with attempts := 3 }).2 =
          (maxAttemptsOf { retryTwo with attempts := 3 }).toNat ∧
        (executeCheckUnhealthy (freshBreaker cbConfig5) 0
            { retryTwo with attempts := 3 }).1.failures =
          (freshBreaker cbConfig5).failures + maxAttemptsOf { retryTwo with attempts := 3 } :=
  ⟨⟨by decide, by decide, by decide, by decide⟩,
    C1_one_outcome_per_attempt (freshBreaker cbConfig5) 0 { retryTwo with attempts := 3 }
      (by decide) (by decide) (by decide) (by decide)⟩

/-- Counterexample to claim C7 as stated: with base delay `b = 0` and backoff
"none" the computed delay is the 2-second default, not `b`; and with backoff
"none", `b = 5 s` and `max_delay = 1 s` the returned delay exceeds
`max_delay` — the cap is not applied in the default branch. -/
theorem C7_counterexample :
    calculateRetryDelay retryNoneZero 1 = 2000000000 ∧
      (2000000000 : Int) ≠ 0 ∧
      calculateRetryDelay retryNoneCapped 2 = 5000000000 ∧
      retryNoneCapped.maxDelayNs = 1000000000 ∧
      ¬ ((5000000000 : Int) ≤ 1000000000) := by decide

/-- Claim C7 (amended): for a positive base delay `b` and attempt `n ≥ 1`,
absent `int64` overflow the delay is `b` for backoff "none" or any
unrecognized value (with **no** `max_delay` cap), `b·n` for "linear" and
`b·2^(n−1)` for "exponential", the latter two capped at `max_delay` when
`max_delay > 0`.  A zero base delay is replaced by the 2-second default. -/
theorem C7_retry_delay (retry : RetryConfig) (n : Nat)
    (hn : 1 ≤ n) (hb : 0 < retry.delayNs) :
    (retry.backoff ≠ "exponential".data → retry.backoff ≠ "linear".data →
        calculateRetryDelay retry n = retry.delayNs) ∧
      (retry.backoff = "linear".data → retry.delayNs * (n : Int) < 2 ^ 63 →
        calculateRetryDelay retry n =
            (if 0 < retry.maxDelayNs ∧ retry.maxDelayNs < retry.delayNs * (n : Int)
              then retry.maxDelayNs else retry.delayNs * (n : Int)) ∧
          (0 < retry.maxDelayNs → calculateRetryDelay retry n ≤ retry.maxDelayNs)) ∧
      (retry.backoff = "exponential".data →
          retry.delayNs * 2 ^ (n - 1) < 2 ^ 63 →
        calculateRetryDelay retry n =
            (if 0 < retry.maxDelayNs ∧ retry.maxDelayNs < retry.delayNs * 2 ^ (n - 1)
              then retry.maxDelayNs else retry.delayNs * 2 ^ (n - 1)) ∧
          (0 < retry.maxDelayNs → calculateRetryDelay retry n ≤ retry.maxDelayNs)) := by
  have hne : ¬ retry.delayNs = 0 := by omega
  refine ⟨?_, ?_, ?_⟩
  · intro h1 h2
    simp [calculateRetryDelay, hne, h1, h2]
  · intro h1 hov
    have h2 : ¬ retry.backoff = "exponential".data := by rw [h1]; decide
    have hge : (0 : Int) ≤ retry.delayNs * (n : Int) := by positivity
    have hw : wrap64 (retry.delayNs * (n : Int)) = retry.delayNs * (n : Int) :=
      wrap64_eq_self (by omega) hov
    have hval : calculateRetryDelay retry n =
        (if 0 < retry.maxDelayNs ∧ retry.maxDelayNs < retry.delayNs * (n : Int)
          then retry.maxDelayNs else retry.delayNs * (n : Int)) := by
      simp [calculateRetryDelay, hne, h1, h2, hw]
    refine ⟨hval, fun hmd => ?_⟩
    rw [hval]
    split_ifs with hcap
    · omega
    · omega
  · intro h1 hov
    have hpow : (0 : Int) < 2 ^ (n - 1) := by positivity
    have hpow63 : (2 : Int) ^ (n - 1) < 2 ^ 63 := by
      have hle : (2 : Int) ^ (n - 1) ≤ retry.delayNs * 2 ^ (n - 1) := by
        have := mul_le_mul_of_nonneg_right (by omega : (1 : Int) ≤ retry.delayNs)
          (le_of_lt hpow)
        simpa using this
      omega
    have hw1 : wrap64 ((2 : Int) ^ (n - 1)) = 2 ^ (n - 1) :=
      wrap64_eq_self (by omega) hpow63
    have hge : (0 : Int) ≤ retry.delayNs * 2 ^ (n - 1) := by positivity
    have hw2 : wrap64 (retry.delayNs * 2 ^ (n - 1)) = retry.delayNs * 2 ^ (n - 1) :=
      wrap64_eq_self (by omega) hov
    have hval : calculateRetryDelay retry n =
        (if 0 < retry.maxDelayNs ∧ retry.maxDelayNs < retry.delayNs * 2 ^ (n - 1)
          then retry.maxDelayNs else retry.delayNs * 2 ^ (n - 1)) := by
      simp [calculateRetryDelay, hne, h1, hw1, hw2]
    refine ⟨hval, fun hmd => ?_⟩
    rw [hval]
    split_ifs with hcap
    · omega
    · omega

/-- Witness for C7 (amended): exponential backoff with base 3 ns at attempt 4
caps `3·2^3 = 24` at the 20 ns maximum delay. -/
theorem C7_witness :
    ((1 ≤ 4 ∧ (0 : Int) < retryExpC7.delayNs) ∧
        retryExpC7.delayNs * 2 ^ (4 - 1) < 2 ^ 63) ∧
      calculateRetryDelay retryExpC7 4 =
          (if 0 < retryExpC7.maxDelayNs ∧
              retryExpC7.maxDelayNs < retryExpC7.delayNs * 2 ^ (4 - 1)
            then retryExpC7.maxDelayNs else retryExpC7.delayNs * 2 ^ (4 - 1)) ∧
        (0 < retryExpC7.maxDelayNs → calculateRetryDelay retryExpC7 4 ≤ retryExpC7.maxDelayNs) :=
  ⟨⟨⟨by decide, by decide⟩, by decide⟩,
    (C7_retry_delay retryExpC7 4 (by decide) (by decide)).2.2 (by decide) (by decide)⟩

end Healthcheck
